import Mathlib

/-!
Shallow embedding of the mdbook-docx document assembly pipeline
(`src/document.rs`, `src/pandoc.rs`) together with the parts of its
dependencies that the pipeline exercises: the `glob` crate's pattern
compiler and matcher (as called through `Pattern::matches_path`, i.e.
with default `MatchOptions`: case-sensitive, separators and leading
dots not required to be literal), the `mdbook` book view consumed via
`context.book.iter()`, and the option surface of the `pandoc` crate.

Modelling conventions:
- `PathBuf` is a UTF-8 string (`to_str` never fails); `PathBuf::join`
  appends with a `/` separator unless the right side is absolute.
- The external pandoc binary is an environment `PandocEnv` mapping an
  invocation (inputs, output file, option list) to a result; the two
  `pandoc.execute()` call sites record their invocation in a trace.
- Rust panics (`expect`) are a dedicated error constructor
  `ProcError.panicked`, distinct from `anyhow` errors (`bail!`),
  modelled as `ProcError.failed` carrying the `bail!` message.
- A `mdbook` book is the sequence of `BookItem`s produced by the
  depth-first `Book::iter()` traversal, which is the only way the
  pipeline reads it.
-/

/-- Paths are modelled as UTF-8 strings (Rust `PathBuf` on a Unix host). -/
abbrev PathBuf := String

/-- Rust `PathBuf::join`: appends a component, replacing the whole path
when the appended component is absolute (starts with `/`). -/
def PathBuf.join (a b : PathBuf) : PathBuf :=
  if b.toList.head? = some '/' then b else a ++ "/" ++ b

namespace Glob

/-- One entry of a glob character class (`glob::CharSpecifier`). -/
inductive CharSpecifier where
  | SingleChar (c : Char)
  | CharRange (a b : Char)
deriving DecidableEq

/-- A compiled glob token (`glob::PatternToken`). -/
inductive PatternToken where
  | Char (c : Char)
  | AnyChar
  | AnySequence
  | AnyRecursiveSequence
  | AnyWithin (specs : List CharSpecifier)
  | AnyExcept (specs : List CharSpecifier)
deriving DecidableEq

/-- A compiled glob pattern. The crate's `original` string and
`is_recursive` flag are omitted: neither is read by this repository
(matching with default options uses only the token list). -/
structure GlobPattern where
  tokens : List PatternToken
deriving DecidableEq

/-- `glob::PatternError`; the crate also records a byte position, which
nothing in this repository reads, so only the message is kept. -/
structure PatternError where
  msg : String
deriving DecidableEq

def ERROR_WILDCARDS : String := "wildcards are either regular `*` or recursive `**`"

def ERROR_RECURSIVE_WILDCARDS : String := "recursive wildcards must form a single path component"

def ERROR_INVALID_RANGE : String := "invalid range pattern"

/-- `glob::parse_char_specifiers`: `a-b` triples become ranges, all
other characters stand for themselves. -/
def parse_char_specifiers : List Char → List CharSpecifier
  | a :: '-' :: b :: rest => CharSpecifier.CharRange a b :: parse_char_specifiers rest
  | a :: rest => CharSpecifier.SingleChar a :: parse_char_specifiers rest
  | [] => []

/-- Finds the first `]` in a character list, returning the characters
before it and the characters after it (the crate's
`chars[..].iter().position(|x| *x == ']')` scan). -/
def splitOnRBracket : List Char → Option (List Char × List Char)
  | [] => none
  | c :: rest =>
    if c = ']' then some ([], rest)
    else (splitOnRBracket rest).map (fun p => (c :: p.1, p.2))

/-- The crate's collapse of consecutive `**` tokens: a new
`AnyRecursiveSequence` is pushed unless the token list already has more
than one token and ends in one (the `tokens_len > 1` test is the
crate's own). -/
def pushRecursive (tokens : List PatternToken) : List PatternToken :=
  if tokens.length > 1 ∧ tokens.getLast? = some PatternToken.AnyRecursiveSequence then
    tokens
  else
    tokens ++ [PatternToken.AnyRecursiveSequence]

/-- The token-building loop of `glob::Pattern::new`. `tokens` is the
accumulator, `prev` the character immediately before the current rest
of the pattern (`none` at the very start); star runs are counted by the
clause patterns, and `[`/`[!` classes are scanned for their closing
`]`. -/
def compileLoop (tokens : List PatternToken) (prev : Option Char) :
    List Char → Except PatternError (List PatternToken)
  | [] => Except.ok tokens
  | '?' :: rest => compileLoop (tokens ++ [PatternToken.AnyChar]) (some '?') rest
  | '*' :: '*' :: '*' :: _ => Except.error ⟨ERROR_WILDCARDS⟩
  | '*' :: '*' :: rest =>
    if prev = none ∨ prev = some '/' then
      match rest with
      | '/' :: rest2 => compileLoop (pushRecursive tokens) (some '/') rest2
      | [] => Except.ok (pushRecursive tokens)
      | _ => Except.error ⟨ERROR_RECURSIVE_WILDCARDS⟩
    else
      Except.error ⟨ERROR_RECURSIVE_WILDCARDS⟩
  | '*' :: rest => compileLoop (tokens ++ [PatternToken.AnySequence]) (some '*') rest
  | '[' :: '!' :: c0 :: c1 :: tail =>
    (match h : splitOnRBracket (c1 :: tail) with
     | some (before, after) =>
       compileLoop (tokens ++ [PatternToken.AnyExcept (parse_char_specifiers (c0 :: before))])
         (some ']') after
     | none => Except.error ⟨ERROR_INVALID_RANGE⟩)
  | '[' :: c0 :: c1 :: tail =>
    if c0 = '!' then Except.error ⟨ERROR_INVALID_RANGE⟩
    else
      (match h : splitOnRBracket (c1 :: tail) with
       | some (before, after) =>
         compileLoop (tokens ++ [PatternToken.AnyWithin (parse_char_specifiers (c0 :: before))])
           (some ']') after
       | none => Except.error ⟨ERROR_INVALID_RANGE⟩)
  | '[' :: _ => Except.error ⟨ERROR_INVALID_RANGE⟩
  | c :: rest => compileLoop (tokens ++ [PatternToken.Char c]) (some c) rest
termination_by cs => cs.length
decreasing_by
  all_goals simp_wf
  all_goals try omega
  all_goals
    (have key : ∀ (l b a : List Char), splitOnRBracket l = some (b, a) → a.length < l.length := by
      intro l
      induction l with
      | nil => intro b a h2; simp [splitOnRBracket] at h2
      | cons c rest ih =>
        intro b a h2
        rw [splitOnRBracket] at h2
        split at h2
        · simp only [Option.some.injEq, Prod.mk.injEq] at h2
          simp [← h2.2]
        · cases hsp : splitOnRBracket rest with
          | none => rw [hsp] at h2; simp at h2
          | some p =>
            obtain ⟨b', a'⟩ := p
            rw [hsp] at h2
            simp only [Option.map_some', Option.some.injEq, Prod.mk.injEq] at h2
            obtain ⟨h3, h4⟩ := h2
            subst h4
            exact Nat.lt_succ_of_lt (ih _ _ hsp)
     have := key _ _ _ h
     simp at this ⊢
     omega)

/-- `glob::Pattern::new`: compile a pattern string to tokens. -/
def Pattern.new (pattern : String) : Except PatternError GlobPattern :=
  (compileLoop [] none pattern.toList).map (fun ts => { tokens := ts })

/-- Result of one `matches_from` attempt (`glob::MatchResult`). -/
inductive MatchResult where
  | Match
  | SubPatternDoesntMatch
  | EntirePatternDoesntMatch
deriving DecidableEq

/-- `glob::in_char_specifiers` with the default case-sensitive options. -/
def in_char_specifiers (specs : List CharSpecifier) (c : Char) : Bool :=
  specs.any fun s =>
    match s with
    | CharSpecifier.SingleChar sc => c == sc
    | CharSpecifier.CharRange a b => a ≤ c ∧ c ≤ b

mutual

/-- `glob::Pattern::matches_from` specialised to the default
`MatchOptions` used by `Pattern::matches` (case-sensitive, separators
and leading dots not literal). An exhausted token list matches iff the
file is exhausted (leftover file characters are a sub-pattern
mismatch); a non-wildcard token against an exhausted file aborts the
whole attempt. The wildcard tokens first try an empty match and then
consume characters through `anySeqLoop`. -/
def matchesFrom : List PatternToken → Bool → List Char → MatchResult
  | [], _, file =>
    if file.isEmpty then MatchResult.Match else MatchResult.SubPatternDoesntMatch
  | PatternToken.AnySequence :: rest, follows_separator, file =>
    (match matchesFrom rest follows_separator file with
     | MatchResult.SubPatternDoesntMatch => anySeqLoop false rest follows_separator file
     | m => m)
  | PatternToken.AnyRecursiveSequence :: rest, follows_separator, file =>
    (match matchesFrom rest follows_separator file with
     | MatchResult.SubPatternDoesntMatch => anySeqLoop true rest follows_separator file
     | m => m)
  | _ :: _, _, [] => MatchResult.EntirePatternDoesntMatch
  | tok :: rest, _, c :: cs =>
    let ok : Bool :=
      match tok with
      | PatternToken.AnyChar => true
      | PatternToken.AnyWithin specs => in_char_specifiers specs c
      | PatternToken.AnyExcept specs => ! in_char_specifiers specs c
      | PatternToken.Char c2 => c == c2
      | _ => false
    if ok then matchesFrom rest (c == '/') cs else MatchResult.SubPatternDoesntMatch
termination_by tokens _ file => (file.length, tokens.length, 0)

/-- The character-consuming `while let Some(c) = file.next()` loop of a
wildcard token: under `**` non-separator characters are consumed
without a sub-match attempt; otherwise each position after a consumed
character is tried, stopping early on anything other than
`SubPatternDoesntMatch`. When the file is exhausted the enclosing
`for` loop proceeds to the remaining tokens with the exhausted file. -/
def anySeqLoop (isRec : Bool) (rest : List PatternToken) : Bool → List Char → MatchResult
  | fs, [] => matchesFrom rest fs []
  | _, c :: cs =>
    let follows := c == '/'
    if isRec && !follows then
      anySeqLoop isRec rest follows cs
    else
      match matchesFrom rest follows cs with
      | MatchResult.SubPatternDoesntMatch => anySeqLoop isRec rest follows cs
      | m => m
termination_by _ file => (file.length, rest.length, 1)

end

/-- `glob::Pattern::matches` (default options). -/
def GlobPattern.matches (p : GlobPattern) (s : String) : Bool :=
  matchesFrom p.tokens true s.toList == MatchResult.Match

/-- `glob::Pattern::matches_path`: paths are UTF-8 strings here, so
`to_str` always succeeds and this is `matches` on the path string. -/
def GlobPattern.matches_path (p : GlobPattern) (path : PathBuf) : Bool :=
  p.matches path

end Glob

/-! ## The mdbook view (`mdbook::book`, `mdbook::renderer::RenderContext`)

Only the parts the pipeline reads: a chapter's `path` and `content`,
and the flat depth-first sequence of items produced by `Book::iter()`.
-/

/-- A `mdbook::book::Chapter`, restricted to the fields this repository
reads. `path` is `None` for draft chapters and synthetic chapters. -/
structure Chapter where
  name : String
  content : String
  path : Option PathBuf
deriving DecidableEq

/-- `mdbook::book::Chapter::is_draft_chapter`: a chapter is a draft iff
it has no source path. -/
def Chapter.is_draft_chapter (c : Chapter) : Bool :=
  c.path.isNone

/-- A `mdbook::BookItem`. -/
inductive BookItem where
  | Chapter (c : Chapter)
  | Separator
  | PartTitle (title : String)
deriving DecidableEq

/-- The slice of `mdbook::renderer::RenderContext` the pipeline reads:
the book root directory and the book's items in the order produced by
`Book::iter()` (depth-first). Cloning a context yields an equal value,
so `context.clone()` is the identity here. -/
structure RenderContext where
  root : PathBuf
  book : List BookItem
deriving DecidableEq

/-! ## The pandoc crate surface (`pandoc::PandocOption`, extensions) -/

/-- The `pandoc::MarkdownExtension` values this repository uses. -/
inductive MarkdownExtension where
  | PipeTables
  | RawHtml
  | AutolinkBareUris
  | AutoIdentifiers
  | HardLineBreaks
  | BlankBeforeHeader
  | TableCaptions
  | PandocTitleBlock
  | YamlMetadataBlock
  | ImplicitHeaderReferences
deriving DecidableEq

/-- The `pandoc::PandocOption` values this repository uses. -/
inductive PandocOption where
  | DataDir (p : PathBuf)
  | ResourcePath (ps : List PathBuf)
  | AtxHeaders
  | ReferenceLinks
  | ShiftHeadingLevelBy (i : Int)
  | ReferenceDoc (p : PathBuf)
  | IncludeBeforeBody (p : PathBuf)
  | IncludeAfterBody (p : PathBuf)
deriving DecidableEq

/-- How input reaches a pandoc invocation: an in-memory pipe
(`pandoc::InputKind::Pipe`) or a list of input files added with
`add_input`. -/
inductive InputKind where
  | pipe (content : String)
  | files (paths : List PathBuf)
deriving DecidableEq

/-- One external `pandoc.execute()` call, as configured by this
repository: its input, its output file (`OutputKind::File`), and its
option list. Input/output format selectors are fixed at both call
sites and carry no per-document information, so they are omitted. -/
structure Invocation where
  inputs : InputKind
  output : PathBuf
  options : List PandocOption
deriving DecidableEq

/-- The input-file list of an invocation (empty for a piped one). -/
def Invocation.inputFiles (inv : Invocation) : List PathBuf :=
  match inv.inputs with
  | InputKind.pipe _ => []
  | InputKind.files ps => ps

/-- The external pandoc binary: each invocation either succeeds or
produces an error message (`pandoc::PandocError`, rendered to text). -/
abbrev PandocEnv := Invocation → Except String Unit

/-! ## Errors

`anyhow::bail!` failures and Rust panics (`expect`) are kept apart:
a `bail!` produces an `Err` value that callers can observe, while a
panic aborts the process. -/

/-- How a pipeline step can go wrong. -/
inductive ProcError where
  | panicked (msg : String)
  | failed (msg : String)
deriving DecidableEq

/-- Rust `Result::expect` on a fallible value: the value on `Ok`, a
panic carrying the given message on `Err`. (The real panic message
also appends the debug form of the underlying error; only the fixed
message is kept.) -/
def expectPanic {α : Type} (r : Except Glob.PatternError α) (msg : String) : Except ProcError α :=
  match r with
  | Except.ok a => Except.ok a
  | Except.error _ => Except.error (ProcError.panicked msg)

/-- `pandoc.execute()` followed by `bail!`/`?` on its error. -/
def runPandoc (env : PandocEnv) (inv : Invocation) : Except ProcError Unit :=
  match env inv with
  | Except.ok _ => Except.ok ()
  | Except.error e => Except.error (ProcError.failed e)

/-! ## `src/document.rs` and `src/pandoc.rs` -/

/-- `DocumentContent` (src/document.rs): the assembled markdown for one
document, as a single string. -/
structure DocumentContent where
  value : String
deriving DecidableEq

/-- The `Document` struct (src/document.rs): one configured output
document. -/
structure Document where
  filename : PathBuf
  template : Option PathBuf
  «include» : Option (List PathBuf)
  offset_headings_by : Option Int
  append : Option (List PathBuf)
  prepend : Option (List PathBuf)
deriving DecidableEq

/-- The `impl Default for Document` (src/document.rs lines 62-73). -/
def Document.defaultImpl : Document :=
  { filename := "output.docx"
  , template := some "reference.docx"
  , «include» := some ["*"]
  , offset_headings_by := none
  , append := none
  , prepend := none }

/-- A `Document` table as it appears in configuration before
deserialization: each field either present with a value or absent. -/
structure DocumentToml where
  filename : Option PathBuf
  template : Option PathBuf
  «include» : Option (List PathBuf)
  offset_headings_by : Option Int
  append : Option (List PathBuf)
  prepend : Option (List PathBuf)
deriving DecidableEq

/-- The serde-derived deserializer for `Document`: every field carries
a field-level `#[serde(default)]`, so an absent field takes the
default of the *field's type* — the empty `PathBuf` for `filename` and
`None` for every `Option` field. `impl Default for Document` is not
consulted (that would require a struct-level `#[serde(default)]`). -/
def Document.deserialize (raw : DocumentToml) : Document :=
  { filename := raw.filename.getD ""
  , template := raw.template
  , «include» := raw.«include»
  , offset_headings_by := raw.offset_headings_by
  , append := raw.append
  , prepend := raw.prepend }

/-- The `DocumentList` struct (src/document.rs): the ordered documents
of the `[output.docx]` configuration. -/
structure DocumentList where
  documents : List Document
deriving DecidableEq

/-- `PandocConfig` (src/pandoc.rs). -/
structure PandocConfig where
  input_extensions : List MarkdownExtension
  output_extensions : List MarkdownExtension
  options : List PandocOption
  content : DocumentContent
deriving DecidableEq

/-- `impl Default for PandocConfig` (src/pandoc.rs lines 13-33). -/
def PandocConfig.defaultImpl : PandocConfig :=
  { input_extensions :=
      [ MarkdownExtension.PipeTables
      , MarkdownExtension.RawHtml
      , MarkdownExtension.AutolinkBareUris
      , MarkdownExtension.AutoIdentifiers
      , MarkdownExtension.HardLineBreaks
      , MarkdownExtension.BlankBeforeHeader
      , MarkdownExtension.TableCaptions
      , MarkdownExtension.PandocTitleBlock
      , MarkdownExtension.YamlMetadataBlock
      , MarkdownExtension.ImplicitHeaderReferences ]
  , output_extensions := []
  , options := []
  , content := { value := "" } }

/-- `PandocConfig::assign_options` (src/pandoc.rs lines 38-72):
overwrites `options` with the four unconditional options and then
pushes the conditional ones, in source order. Consecutive `let`
rebindings mirror the successive `push` statements. -/
def PandocConfig.assign_options (self : PandocConfig) (context : RenderContext)
    (doc : Document) : PandocConfig :=
  let data_dir := context.root
  let src_path := PathBuf.join data_dir "src"
  let options :=
    [ PandocOption.DataDir data_dir
    , PandocOption.ResourcePath [src_path]
    , PandocOption.AtxHeaders
    , PandocOption.ReferenceLinks ]
  let options :=
    match doc.offset_headings_by with
    | some i => options ++ [PandocOption.ShiftHeadingLevelBy i]
    | none => options
  let options :=
    match doc.template with
    | some path => options ++ [PandocOption.ReferenceDoc (PathBuf.join data_dir path)]
    | none => options
  let options :=
    match doc.prepend with
    | some paths => options ++ paths.map (fun p => PandocOption.IncludeBeforeBody (PathBuf.join data_dir p))
    | none => options
  let options :=
    match doc.append with
    | some paths => options ++ paths.map (fun p => PandocOption.IncludeAfterBody (PathBuf.join data_dir p))
    | none => options
  { self with options := options }

/-- The `bail!` message of `Document::get_chapters` when no chapter
matches (the spec's `NoMatchingChapters`). -/
def noMatchingChaptersMsg : String :=
  "No markdown files match the specified include and/or exclude filters. Verify your filenames and filters are correct."

/-- The `bail!` message of `Document::get_filtered_content` when the
assembled content is empty (the spec's `EmptyFilteredContent`). -/
def emptyContentMsg : String :=
  "The provided include/exclude filters do not match any content."

/-- The `expect` message on `Pattern::new` in `Document::get_patterns`
(the panic on a malformed include glob). -/
def patternExpectMsg : String :=
  "Unable to create Pattern from provided include."

/-- The `expect` message on the wildcard fallback pattern. -/
def wildcardExpectMsg : String :=
  "Error using wildcard glob."

/-- The dead `bail!` message at the end of `Document::get_patterns`
(unreachable: a wildcard was pushed just above when empty). -/
def noFilesMatchedMsg : String :=
  "No files matched the provided include / exclude filters."

/-- The `for buf in self.include... { patterns.push(Pattern::new(..).expect(..)) }`
loop of `Document::get_patterns`: compiles each include string,
panicking on the first malformed one. `to_str().unwrap()` cannot fail
on string-modelled paths. -/
def compileIncludes : List PathBuf → Except ProcError (List Glob.GlobPattern)
  | [] => Except.ok []
  | buf :: rest => do
    let p ← expectPanic (Glob.Pattern.new buf) patternExpectMsg
    let ps ← compileIncludes rest
    pure (p :: ps)

/-- `Document::get_patterns` (src/document.rs lines 103-120):
compile the include globs; when none were configured (absent or empty
list) fall back to the catch-all `*`; the final emptiness `bail!` is
kept although it is unreachable. -/
def Document.get_patterns (self : Document) : Except ProcError (List Glob.GlobPattern) := do
  let patterns ← compileIncludes (self.«include».getD [])
  let patterns ←
    if patterns.length = 0 then do
      let w ← expectPanic (Glob.Pattern.new "*") wildcardExpectMsg
      pure [w]
    else
      pure patterns
  if patterns.isEmpty then
    Except.error (ProcError.failed noFilesMatchedMsg)
  else
    pure patterns

/-- The chapter-collecting loop of `Document::get_chapters`: walks the
book items in traversal order and keeps the path of every chapter that
has one and matches at least one pattern (`pattern_match` is the OR
over the pattern list). -/
def selectChapters (patterns : List Glob.GlobPattern) : List BookItem → List PathBuf
  | [] => []
  | BookItem.Chapter c :: rest =>
    (match c.path with
     | some p =>
       if patterns.any (fun pat => pat.matches_path p) then
         p :: selectChapters patterns rest
       else
         selectChapters patterns rest
     | none => selectChapters patterns rest)
  | _ :: rest => selectChapters patterns rest

/-- `Document::get_chapters` (src/document.rs lines 76-100). -/
def Document.get_chapters (self : Document) (context : RenderContext) :
    Except ProcError (List PathBuf) := do
  let patterns ← self.get_patterns
  let ch := selectChapters patterns context.book
  if ch.isEmpty then
    Except.error (ProcError.failed noMatchingChaptersMsg)
  else
    pure ch

/-- The content-accumulating loop of `Document::get_filtered_content`:
walks the book items in traversal order, appending to the accumulator
the content of every chapter whose path is in the selected list,
followed by two newline characters (`content.push_str(&ch.content);
content.push_str("\n\n")`). -/
def contentLoop (chapters : List PathBuf) : String → List BookItem → String
  | acc, [] => acc
  | acc, BookItem.Chapter ch :: rest =>
    (match ch.path with
     | some p =>
       if chapters.contains p then contentLoop chapters (acc ++ ch.content ++ "\n\n") rest
       else contentLoop chapters acc rest
     | none => contentLoop chapters acc rest)
  | acc, _ :: rest => contentLoop chapters acc rest

/-- `Document::get_filtered_content` (src/document.rs lines 123-146):
re-walks the book items and appends, for every chapter whose path is in
the selected list, its content followed by two newline characters. -/
def Document.get_filtered_content (self : Document) (context : RenderContext) :
    Except ProcError DocumentContent := do
  let chapters ← self.get_chapters context
  let content := contentLoop chapters "" context.book
  if content.isEmpty then
    Except.error (ProcError.failed emptyContentMsg)
  else
    pure { value := content }

/-- The pandoc invocation assembled by `Document::process`
(src/document.rs lines 148-173): assembled content through a pipe,
output to the configured filename, options from a fresh default
`PandocConfig` passed through `assign_options`. -/
def Document.primaryInvocation (self : Document) (context : RenderContext)
    (content : DocumentContent) : Invocation :=
  { inputs := InputKind.pipe content.value
  , output := self.filename
  , options := (PandocConfig.defaultImpl.assign_options context self).options }

/-- The pandoc invocation assembled by `Document::combine_sections`
(src/document.rs lines 182-213): the parts list starts with the
root-resolved prepend paths, then the primary output under
`root/book/docx`, then the root-resolved append paths; the options are
rebuilt by `assign_options` on a fresh default config; output goes to
the configured filename again. -/
def Document.combineInvocation (self : Document) (context : RenderContext) : Invocation :=
  let parts : List PathBuf := []
  let parts :=
    match self.prepend with
    | some paths => parts ++ paths.map (fun p => PathBuf.join context.root p)
    | none => parts
  let parts := parts ++ [PathBuf.join (PathBuf.join context.root "book/docx") self.filename]
  let parts :=
    match self.append with
    | some paths => parts ++ paths.map (fun p => PathBuf.join context.root p)
    | none => parts
  { inputs := InputKind.files parts
  , output := self.filename
  , options := (PandocConfig.defaultImpl.assign_options context self).options }

/-- `Document::combine_sections` (src/document.rs lines 182-213):
executes the combine invocation unconditionally. -/
def Document.combine_sections (self : Document) (env : PandocEnv)
    (context : RenderContext) : Except ProcError Unit :=
  runPandoc env (self.combineInvocation context)

/-- `Document::process` (src/document.rs lines 148-180): assemble the
content, run the primary conversion, then always run the combine step.
The second component is the trace of pandoc invocations that were
actually executed, in order. -/
def Document.process (self : Document) (env : PandocEnv) (context : RenderContext) :
    Except ProcError Unit × List Invocation :=
  match self.get_filtered_content context with
  | Except.error e => (Except.error e, [])
  | Except.ok content =>
    let inv1 := self.primaryInvocation context content
    match runPandoc env inv1 with
    | Except.error e => (Except.error e, [inv1])
    | Except.ok _ =>
      let inv2 := self.combineInvocation context
      (runPandoc env inv2, [inv1, inv2])

/-- The `for doc in self.documents` loop of `DocumentList::process`
(src/document.rs lines 31-44): processes documents in list order,
`bail!`ing with the first failure; the trace accumulates the pandoc
invocations of the documents that were processed. -/
def processDocs (env : PandocEnv) (context : RenderContext) :
    List Document → Except ProcError Unit × List Invocation
  | [] => (Except.ok (), [])
  | doc :: rest =>
    let r := doc.process env context
    match r.1 with
    | Except.error e => (Except.error e, r.2)
    | Except.ok _ =>
      let rr := processDocs env context rest
      (rr.1, r.2 ++ rr.2)

/-- `DocumentList::process` (src/document.rs lines 31-44). Each
iteration passes `context.clone()`, which is the identity on values. -/
def DocumentList.process (self : DocumentList) (env : PandocEnv)
    (context : RenderContext) : Except ProcError Unit × List Invocation :=
  processDocs env context self.documents

/-! ## Specification-side characterizations and concrete fixtures -/

/-- The path-bearing, non-draft chapters of a book in traversal order
(the set the spec says a wildcard include selects). With mdbook's own
draft notion (`is_draft_chapter` = no path) the two conditions
coincide, but both are stated as the spec states them. -/
def pathBearingNonDraft : List BookItem → List PathBuf
  | [] => []
  | BookItem.Chapter c :: rest =>
    (match c.path with
     | some p =>
       if ! c.is_draft_chapter then p :: pathBearingNonDraft rest
       else pathBearingNonDraft rest
     | none => pathBearingNonDraft rest)
  | _ :: rest => pathBearingNonDraft rest

/-- The per-chapter pieces of the assembled content: for every book
item in traversal order whose chapter path is in the selected list,
its content followed by exactly two newline characters. -/
def assembledPieces (chapters : List PathBuf) : List BookItem → List String
  | [] => []
  | BookItem.Chapter ch :: rest =>
    (match ch.path with
     | some p =>
       if chapters.contains p then
         (ch.content ++ "\n\n") :: assembledPieces chapters rest
       else
         assembledPieces chapters rest
     | none => assembledPieces chapters rest)
  | _ :: rest => assembledPieces chapters rest

/-- Concatenation of a list of strings, in order, with no separator. -/
def joinPieces : List String → String
  | [] => ""
  | s :: rest => s ++ joinPieces rest

/-- A pandoc environment in which every invocation succeeds. -/
def envOk : PandocEnv := fun _ => Except.ok ()

/-- Fixture chapter `ch1.md`. -/
def chA : Chapter := { name := "Chapter 1", content := "Hello", path := some "ch1.md" }

/-- Fixture chapter `ch2.md`. -/
def chB : Chapter := { name := "Chapter 2", content := "World", path := some "ch2.md" }

/-- Fixture render context: two path-bearing chapters and a separator. -/
def ctx0 : RenderContext :=
  { root := "/book", book := [BookItem.Chapter chA, BookItem.Separator, BookItem.Chapter chB] }

/-- Fixture document selecting everything, with no prepend/append. -/
def docAll : Document :=
  { filename := "out.docx", template := some "reference.docx", «include» := some ["*"]
  , offset_headings_by := none, append := none, prepend := none }

/-- Fixture document whose include pattern matches no chapter. -/
def docNoMatch : Document :=
  { filename := "out.docx", template := none, «include» := some ["zz"]
  , offset_headings_by := none, append := none, prepend := none }

/-- Fixture document with a malformed include glob (unclosed `[`). -/
def docBadGlob : Document :=
  { filename := "out.docx", template := none, «include» := some ["["]
  , offset_headings_by := none, append := none, prepend := none }

/-- Fixture document with prepend and append files. -/
def docWrapped : Document :=
  { filename := "out.docx", template := some "reference.docx", «include» := some ["*"]
  , offset_headings_by := some 1, append := some ["back.docx"], prepend := some ["front.docx"] }

/-- A configuration table with every field absent. -/
def DocumentToml.allAbsent : DocumentToml :=
  { filename := none, template := none, «include» := none
  , offset_headings_by := none, append := none, prepend := none }

/-! ## Glob matcher facts -/

namespace Glob

theorem anySeqLoop_nil_tokens (fs : Bool) (file : List Char) :
    anySeqLoop false [] fs file = MatchResult.Match := by
  induction file generalizing fs with
  | nil => simp [anySeqLoop, matchesFrom]
  | cons c cs ih =>
    cases cs with
    | nil => simp [anySeqLoop, matchesFrom]
    | cons d ds => simp [anySeqLoop, matchesFrom, ih]

theorem wildcard_matchesFrom (fs : Bool) (file : List Char) :
    matchesFrom [PatternToken.AnySequence] fs file = MatchResult.Match := by
  cases file with
  | nil => simp [matchesFrom]
  | cons c cs => simp [matchesFrom, anySeqLoop_nil_tokens]

theorem wildcard_matches_path (p : PathBuf) :
    GlobPattern.matches_path ⟨[PatternToken.AnySequence]⟩ p = true := by
  simp [GlobPattern.matches_path, GlobPattern.matches, wildcard_matchesFrom]

theorem pattern_new_star :
    Pattern.new "*" = Except.ok ⟨[PatternToken.AnySequence]⟩ := by
  simp [Pattern.new, compileLoop, Except.map]

theorem pattern_new_zz :
    Pattern.new "zz" = Except.ok ⟨[PatternToken.Char 'z', PatternToken.Char 'z']⟩ := by
  simp [Pattern.new, compileLoop, Except.map]

theorem pattern_new_lbracket :
    Pattern.new "[" = Except.error ⟨ERROR_INVALID_RANGE⟩ := by
  simp [Pattern.new, compileLoop, Except.map]

theorem zz_not_matches_ch1 :
    GlobPattern.matches_path ⟨[PatternToken.Char 'z', PatternToken.Char 'z']⟩ "ch1.md" = false := by
  simp [GlobPattern.matches_path, GlobPattern.matches, matchesFrom]

theorem zz_not_matches_ch2 :
    GlobPattern.matches_path ⟨[PatternToken.Char 'z', PatternToken.Char 'z']⟩ "ch2.md" = false := by
  simp [GlobPattern.matches_path, GlobPattern.matches, matchesFrom]

end Glob

/-! ## Pattern and selection lemmas -/

theorem get_patterns_wildcard (doc : Document)
    (h : doc.«include» = some ["*"] ∨ doc.«include» = none ∨ doc.«include» = some []) :
    doc.get_patterns = Except.ok [⟨[Glob.PatternToken.AnySequence]⟩] := by
  rcases h with h | h | h <;>
    simp [Document.get_patterns, h, compileIncludes, expectPanic, Glob.pattern_new_star,
      Except.map, bind, Except.bind, pure, Except.pure]

theorem selectChapters_wildcard (book : List BookItem) :
    selectChapters [⟨[Glob.PatternToken.AnySequence]⟩] book = pathBearingNonDraft book := by
  induction book with
  | nil => simp [selectChapters, pathBearingNonDraft]
  | cons item rest ih =>
    cases item with
    | Chapter c =>
      cases hp : c.path with
      | none => simp [selectChapters, pathBearingNonDraft, hp, ih]
      | some p =>
        simp [selectChapters, pathBearingNonDraft, hp, ih, Glob.wildcard_matches_path,
          Chapter.is_draft_chapter]
    | Separator => simp [selectChapters, pathBearingNonDraft, ih]
    | PartTitle t => simp [selectChapters, pathBearingNonDraft, ih]

/-- C3: for every book tree, a DocumentSpec whose include list is
`["*"]` — and equally one whose include list is empty or absent, both
coerced to the single wildcard pattern — selects exactly the
path-bearing, non-draft chapters of the book, in the tree's traversal
order (when that set is empty the selector instead reports
`NoMatchingChapters`, the behaviour claim C6 describes). -/
theorem c3_wildcard_selects_all (context : RenderContext) (doc : Document)
    (h : doc.«include» = some ["*"] ∨ doc.«include» = none ∨ doc.«include» = some []) :
    doc.get_chapters context =
      if pathBearingNonDraft context.book = [] then
        Except.error (ProcError.failed noMatchingChaptersMsg)
      else
        Except.ok (pathBearingNonDraft context.book) := by
  simp [Document.get_chapters, get_patterns_wildcard doc h, selectChapters_wildcard,
    bind, Except.bind, pure, Except.pure, List.isEmpty_iff]

/-- Witness for C3: on a concrete two-chapter book, both a `["*"]`
include and an absent include select both chapter paths in order. -/
theorem c3_wildcard_selects_all_witness :
    docAll.get_chapters ctx0 = Except.ok ["ch1.md", "ch2.md"]
    ∧ Document.get_chapters
        { docAll with «include» := none } ctx0 = Except.ok ["ch1.md", "ch2.md"] := by
  have h1 := c3_wildcard_selects_all ctx0 docAll (Or.inl rfl)
  have h2 := c3_wildcard_selects_all ctx0 { docAll with «include» := none } (Or.inr (Or.inl rfl))
  constructor
  · simpa [ctx0, chA, chB, pathBearingNonDraft, Chapter.is_draft_chapter] using h1
  · simpa [ctx0, chA, chB, pathBearingNonDraft, Chapter.is_draft_chapter] using h2

/-! ## C4: content assembly -/

theorem contentLoop_eq (chapters : List PathBuf) (book : List BookItem) (acc : String) :
    contentLoop chapters acc book = acc ++ joinPieces (assembledPieces chapters book) := by
  induction book generalizing acc with
  | nil => simp [contentLoop, assembledPieces, joinPieces]
  | cons item rest ih =>
    cases item with
    | Chapter ch =>
      cases hp : ch.path with
      | none => simp [contentLoop, hp, assembledPieces, ih]
      | some p =>
        by_cases hc : p ∈ chapters
        · simp [contentLoop, hp, hc, assembledPieces, joinPieces, ih, String.append_assoc]
        · simp [contentLoop, hp, hc, assembledPieces, ih]
    | Separator => simp [contentLoop, assembledPieces, ih]
    | PartTitle t => simp [contentLoop, assembledPieces, ih]

/-- C4: for every book tree and document, a successfully assembled
content value is the concatenation, in tree traversal order, of each
selected chapter's content each followed by exactly two newline
characters — no other separator and no trailing trim (so for adjacent
selected chapters A then B it contains `A.content ++ "\n\n" ++
B.content`). -/
theorem c4_assembled_content (context : RenderContext) (doc : Document) (v : DocumentContent)
    (h : doc.get_filtered_content context = Except.ok v) :
    ∃ sel, doc.get_chapters context = Except.ok sel
      ∧ v.value = joinPieces (assembledPieces sel context.book) := by
  unfold Document.get_filtered_content at h
  cases hch : doc.get_chapters context with
  | error e => rw [hch] at h; simp [bind, Except.bind] at h
  | ok sel =>
    refine ⟨sel, rfl, ?_⟩
    rw [hch] at h
    simp only [bind, Except.bind] at h
    rw [contentLoop_eq sel context.book ""] at h
    rw [String.empty_append] at h
    split at h
    · simp [pure, Except.pure] at h
    · simp only [pure, Except.pure, Except.ok.injEq] at h
      rw [← h]

theorem docAll_chapters : docAll.get_chapters ctx0 = Except.ok ["ch1.md", "ch2.md"] := by
  simp [Document.get_chapters, get_patterns_wildcard docAll (Or.inl rfl), ctx0, chA, chB,
    selectChapters, Glob.wildcard_matches_path, bind, Except.bind, pure, Except.pure]

theorem docAll_content :
    docAll.get_filtered_content ctx0 = Except.ok ⟨"Hello\n\nWorld\n\n"⟩ := by
  simp only [Document.get_filtered_content, docAll_chapters, bind, Except.bind]
  simp [contentLoop, ctx0, chA, chB, pure, Except.pure, String.isEmpty]
  decide

/-- Witness for C4 at a concrete book: the assembled value is
`"Hello\n\nWorld\n\n"` — the two contents each followed by two
newlines, adjacent chapters joined by exactly `"\n\n"`. -/
theorem c4_assembled_content_witness :
    ∃ sel, docAll.get_chapters ctx0 = Except.ok sel
      ∧ (DocumentContent.mk "Hello\n\nWorld\n\n").value
          = joinPieces (assembledPieces sel ctx0.book) :=
  c4_assembled_content ctx0 docAll ⟨"Hello\n\nWorld\n\n"⟩ docAll_content

/-! ## C6: empty selection is a hard failure -/

theorem selectChapters_nil_of_no_match (pats : List Glob.GlobPattern) (book : List BookItem)
    (hnone : ∀ c p, BookItem.Chapter c ∈ book → c.path = some p →
      ∀ pat ∈ pats, pat.matches_path p = false) :
    selectChapters pats book = [] := by
  induction book with
  | nil => simp [selectChapters]
  | cons item rest ih =>
    have ih' := ih (fun c p hm hp pat hpat => hnone c p (List.mem_cons_of_mem _ hm) hp pat hpat)
    cases item with
    | Chapter c =>
      cases hp : c.path with
      | none => simpa [selectChapters, hp] using ih'
      | some p =>
        have hany : pats.any (fun pat => pat.matches_path p) = false := by
          rw [List.any_eq_false]
          intro pat hpat
          simp [hnone c p (List.mem_cons_self _ _) hp pat hpat]
        simpa [selectChapters, hp, hany] using ih'
    | Separator => simpa [selectChapters] using ih'
    | PartTitle t => simpa [selectChapters] using ih'

/-- C6: for every book tree and compiled pattern set, if no
path-bearing chapter's path matches any pattern, chapter selection
fails with the `NoMatchingChapters` error — a hard failure, not a
warning or an empty success. -/
theorem c6_no_matching_chapters (context : RenderContext) (doc : Document)
    (pats : List Glob.GlobPattern)
    (hpats : doc.get_patterns = Except.ok pats)
    (hnone : ∀ c p, BookItem.Chapter c ∈ context.book → c.path = some p →
      ∀ pat ∈ pats, pat.matches_path p = false) :
    doc.get_chapters context = Except.error (ProcError.failed noMatchingChaptersMsg) := by
  simp [Document.get_chapters, hpats, selectChapters_nil_of_no_match pats context.book hnone,
    bind, Except.bind, pure, Except.pure]

theorem docNoMatch_patterns :
    docNoMatch.get_patterns
      = Except.ok [⟨[Glob.PatternToken.Char 'z', Glob.PatternToken.Char 'z']⟩] := by
  simp [Document.get_patterns, docNoMatch, compileIncludes, expectPanic, Glob.pattern_new_zz,
    bind, Except.bind, pure, Except.pure]

/-- Witness for C6: the include pattern `zz` matches neither `ch1.md`
nor `ch2.md`, and selection fails with the `NoMatchingChapters`
message. -/
theorem c6_no_matching_chapters_witness :
    docNoMatch.get_chapters ctx0 = Except.error (ProcError.failed noMatchingChaptersMsg) := by
  refine c6_no_matching_chapters ctx0 docNoMatch
    [⟨[Glob.PatternToken.Char 'z', Glob.PatternToken.Char 'z']⟩] docNoMatch_patterns ?_
  intro c p hm hp pat hpat
  simp only [List.mem_singleton] at hpat
  subst hpat
  simp [ctx0] at hm
  rcases hm with h1 | h1
  · subst h1
    simp only [chA, Option.some.injEq] at hp
    subst hp
    exact Glob.zz_not_matches_ch1
  · subst h1
    simp only [chB, Option.some.injEq] at hp
    subst hp
    exact Glob.zz_not_matches_ch2

/-! ## C2: orchestrator ordering and fail-fast -/

theorem processDocs_ok_append (env : PandocEnv) (context : RenderContext)
    (pre rest : List Document)
    (hpre : ∀ d ∈ pre, (d.process env context).1 = Except.ok ()) :
    processDocs env context (pre ++ rest) =
      ((processDocs env context rest).1,
        (processDocs env context pre).2 ++ (processDocs env context rest).2) := by
  induction pre with
  | nil => simp [processDocs]
  | cons d pre' ih =>
    have hd := hpre d (List.mem_cons_self d pre')
    have ih' := ih (fun d' hm => hpre d' (List.mem_cons_of_mem d hm))
    simp [processDocs, hd, ih']

/-- C2: documents are processed strictly in list order; if document k
fails, no document after k is processed (the run's outcome and trace
are those of the list truncated right after k) and the error returned
for the whole run is exactly document k's failure; if every document
succeeds, the run returns success. -/
theorem c2_fail_fast_orchestration (env : PandocEnv) (context : RenderContext) :
    (∀ (pre : List Document) (d : Document) (post : List Document) (e : ProcError),
      (∀ d' ∈ pre, (d'.process env context).1 = Except.ok ()) →
      (d.process env context).1 = Except.error e →
      DocumentList.process ⟨pre ++ d :: post⟩ env context
          = DocumentList.process ⟨pre ++ [d]⟩ env context
        ∧ (DocumentList.process ⟨pre ++ d :: post⟩ env context).1 = Except.error e)
    ∧ (∀ docs : List Document,
      (∀ d ∈ docs, (d.process env context).1 = Except.ok ()) →
      (DocumentList.process ⟨docs⟩ env context).1 = Except.ok ()) := by
  constructor
  · intro pre d post e hpre hd
    have h1 := processDocs_ok_append env context pre (d :: post) hpre
    have h2 := processDocs_ok_append env context pre [d] hpre
    have hstep : processDocs env context (d :: post)
        = (Except.error e, (d.process env context).2) := by
      simp [processDocs, hd]
    have hstep2 : processDocs env context [d]
        = (Except.error e, (d.process env context).2) := by
      simp [processDocs, hd]
    constructor
    · simp [DocumentList.process, h1, h2, hstep, hstep2]
    · simp [DocumentList.process, h1, hstep]
  · intro docs hall
    induction docs with
    | nil => simp [DocumentList.process, processDocs]
    | cons d rest ih =>
      have hd := hall d (List.mem_cons_self d rest)
      have ih' := ih (fun d' hm => hall d' (List.mem_cons_of_mem d hm))
      simp only [DocumentList.process] at ih' ⊢
      simp [processDocs, hd, ih']

theorem docAll_process_ok : (docAll.process envOk ctx0).1 = Except.ok () := by
  simp [Document.process, docAll_content, runPandoc, envOk]

theorem docNoMatch_chapters_err :
    docNoMatch.get_chapters ctx0 = Except.error (ProcError.failed noMatchingChaptersMsg) := by
  simp [Document.get_chapters, docNoMatch_patterns, selectChapters, ctx0, chA, chB,
    Glob.zz_not_matches_ch1, Glob.zz_not_matches_ch2, bind, Except.bind, pure, Except.pure]

theorem docNoMatch_process_err :
    (docNoMatch.process envOk ctx0).1
      = Except.error (ProcError.failed noMatchingChaptersMsg) := by
  simp [Document.process, Document.get_filtered_content, docNoMatch_chapters_err,
    bind, Except.bind]

/-- Witness for C2: in a three-document run whose second document
fails with `NoMatchingChapters`, the run returns exactly that error
and equals the run truncated after the failing document — the third
document is never processed. -/
theorem c2_fail_fast_orchestration_witness :
    (DocumentList.process ⟨[docAll, docNoMatch, docAll]⟩ envOk ctx0).1
        = Except.error (ProcError.failed noMatchingChaptersMsg)
    ∧ DocumentList.process ⟨[docAll, docNoMatch, docAll]⟩ envOk ctx0
        = DocumentList.process ⟨[docAll, docNoMatch]⟩ envOk ctx0 := by
  have h := (c2_fail_fast_orchestration envOk ctx0).1 [docAll] docNoMatch [docAll]
    (ProcError.failed noMatchingChaptersMsg)
    (fun d' hm => by
      simp only [List.mem_singleton] at hm
      subst hm
      exact docAll_process_ok)
    docNoMatch_process_err
  exact ⟨h.2, h.1⟩

/-! ## C7, C8, C10: option builder and combine step -/

theorem assignOptions_options (cfg : PandocConfig) (context : RenderContext) (doc : Document) :
    (cfg.assign_options context doc).options =
      [ PandocOption.DataDir context.root
      , PandocOption.ResourcePath [PathBuf.join context.root "src"]
      , PandocOption.AtxHeaders
      , PandocOption.ReferenceLinks ]
      ++ (match doc.offset_headings_by with
          | some i => [PandocOption.ShiftHeadingLevelBy i]
          | none => [])
      ++ (match doc.template with
          | some p => [PandocOption.ReferenceDoc (PathBuf.join context.root p)]
          | none => [])
      ++ (doc.prepend.getD []).map
          (fun p => PandocOption.IncludeBeforeBody (PathBuf.join context.root p))
      ++ (doc.append.getD []).map
          (fun p => PandocOption.IncludeAfterBody (PathBuf.join context.root p)) := by
  cases h1 : doc.offset_headings_by <;> cases h2 : doc.template <;>
    cases h3 : doc.prepend <;> cases h4 : doc.append <;>
    simp [PandocConfig.assign_options, h1, h2, h3, h4]

/-- C7: for every book root and document spec, the option builder
produces exactly data-directory = root, resource-path = `[root/src]`,
the ATX-headings flag and the reference-links flag, followed — each
only when present on the spec, in this order — by the heading shift
passed through unchanged, reference-doc = `root.join(template)`, one
include-before-body option per prepend path in list order, and one
include-after-body option per append path in list order; and a second
call on the same `(root, spec)` yields the identical option list
(the method overwrites `options`, it does not accumulate). -/
theorem c7_option_builder_exact (cfg : PandocConfig) (context : RenderContext) (doc : Document) :
    (cfg.assign_options context doc).options =
      [ PandocOption.DataDir context.root
      , PandocOption.ResourcePath [PathBuf.join context.root "src"]
      , PandocOption.AtxHeaders
      , PandocOption.ReferenceLinks ]
      ++ (match doc.offset_headings_by with
          | some i => [PandocOption.ShiftHeadingLevelBy i]
          | none => [])
      ++ (match doc.template with
          | some p => [PandocOption.ReferenceDoc (PathBuf.join context.root p)]
          | none => [])
      ++ (doc.prepend.getD []).map
          (fun p => PandocOption.IncludeBeforeBody (PathBuf.join context.root p))
      ++ (doc.append.getD []).map
          (fun p => PandocOption.IncludeAfterBody (PathBuf.join context.root p))
    ∧ (cfg.assign_options context doc).assign_options context doc
        = cfg.assign_options context doc :=
  ⟨assignOptions_options cfg context doc, rfl⟩

/-- C8: the combine step's ordered converter input list is exactly
every prepend path root-resolved in spec order, then the primary
output file (under `root/book/docx`), then every append path
root-resolved in spec order — for all lengths of the prepend and
append lists, including zero on either side. -/
theorem c8_combine_input_order (context : RenderContext) (doc : Document) :
    (doc.combineInvocation context).inputs =
      InputKind.files
        ((doc.prepend.getD []).map (fun p => PathBuf.join context.root p)
          ++ [PathBuf.join (PathBuf.join context.root "book/docx") doc.filename]
          ++ (doc.append.getD []).map (fun p => PathBuf.join context.root p)) := by
  cases h3 : doc.prepend <;> cases h4 : doc.append <;>
    simp [Document.combineInvocation, h3, h4]

theorem combineInvocation_inputFiles (context : RenderContext) (doc : Document) :
    (doc.combineInvocation context).inputFiles =
      (doc.prepend.getD []).map (fun p => PathBuf.join context.root p)
        ++ [PathBuf.join (PathBuf.join context.root "book/docx") doc.filename]
        ++ (doc.append.getD []).map (fun p => PathBuf.join context.root p) := by
  cases h3 : doc.prepend <;> cases h4 : doc.append <;>
    simp [Document.combineInvocation, Invocation.inputFiles, h3, h4]

theorem combineInvocation_options (context : RenderContext) (doc : Document) :
    (doc.combineInvocation context).options
      = (PandocConfig.defaultImpl.assign_options context doc).options := rfl

/-- C10: for every document with a non-empty prepend list (and likewise
append), the combine-step invocation receives each prepend path twice —
once as an entry of the ordered input file list and once more as an
include-before-body option (append paths: as an include-after-body
option) — because the combine step rebuilds and applies the same option
set used for the primary conversion, which already encodes
prepend/append as include options. -/
theorem c10_prepend_append_in_both_channels (context : RenderContext) (doc : Document) :
    (∀ ps p, doc.prepend = some ps → p ∈ ps →
      PathBuf.join context.root p ∈ (doc.combineInvocation context).inputFiles
        ∧ PandocOption.IncludeBeforeBody (PathBuf.join context.root p)
            ∈ (doc.combineInvocation context).options)
    ∧ (∀ ps p, doc.append = some ps → p ∈ ps →
      PathBuf.join context.root p ∈ (doc.combineInvocation context).inputFiles
        ∧ PandocOption.IncludeAfterBody (PathBuf.join context.root p)
            ∈ (doc.combineInvocation context).options) := by
  constructor
  · intro ps p hps hmem
    have hin : PathBuf.join context.root p
        ∈ (doc.prepend.getD []).map (fun q => PathBuf.join context.root q) :=
      List.mem_map_of_mem _ (by simpa [hps] using hmem)
    have hop : PandocOption.IncludeBeforeBody (PathBuf.join context.root p)
        ∈ (doc.prepend.getD []).map
            (fun q => PandocOption.IncludeBeforeBody (PathBuf.join context.root q)) :=
      List.mem_map_of_mem _ (by simpa [hps] using hmem)
    constructor
    · rw [combineInvocation_inputFiles]
      exact List.mem_append.mpr (Or.inl (List.mem_append.mpr (Or.inl hin)))
    · rw [combineInvocation_options, assignOptions_options]
      exact List.mem_append.mpr (Or.inl (List.mem_append.mpr (Or.inr hop)))
  · intro ps p hps hmem
    have hin : PathBuf.join context.root p
        ∈ (doc.append.getD []).map (fun q => PathBuf.join context.root q) :=
      List.mem_map_of_mem _ (by simpa [hps] using hmem)
    have hop : PandocOption.IncludeAfterBody (PathBuf.join context.root p)
        ∈ (doc.append.getD []).map
            (fun q => PandocOption.IncludeAfterBody (PathBuf.join context.root q)) :=
      List.mem_map_of_mem _ (by simpa [hps] using hmem)
    constructor
    · rw [combineInvocation_inputFiles]
      exact List.mem_append.mpr (Or.inr hin)
    · rw [combineInvocation_options, assignOptions_options]
      exact List.mem_append.mpr (Or.inr hop)

/-- Witness for C10 at a concrete document with one prepend and one
append file: each appears both in the input list and as an include
option of the combine invocation. -/
theorem c10_prepend_append_in_both_channels_witness :
    (PathBuf.join "/book" "front.docx" ∈ (docWrapped.combineInvocation ctx0).inputFiles
      ∧ PandocOption.IncludeBeforeBody (PathBuf.join "/book" "front.docx")
          ∈ (docWrapped.combineInvocation ctx0).options)
    ∧ (PathBuf.join "/book" "back.docx" ∈ (docWrapped.combineInvocation ctx0).inputFiles
      ∧ PandocOption.IncludeAfterBody (PathBuf.join "/book" "back.docx")
          ∈ (docWrapped.combineInvocation ctx0).options) := by
  have h := c10_prepend_append_in_both_channels ctx0 docWrapped
  exact ⟨h.1 ["front.docx"] "front.docx" rfl (by simp),
    h.2 ["back.docx"] "back.docx" rfl (by simp)⟩

/-! ## C1: the combine step is not a no-op -/

/-- C1 counterexample: a concrete document whose prepend and append are
both absent, on a concrete book, with a converter that always succeeds:
the primary conversion succeeds, yet the trace contains two converter
invocations — the combine step still invoked the converter a second
time, so the claimed no-op behaviour is false at this input. -/
theorem c1_counterexample :
    docAll.prepend = none ∧ docAll.append = none
    ∧ (docAll.process envOk ctx0).1 = Except.ok ()
    ∧ (docAll.process envOk ctx0).2.length = 2 := by
  have htrace : (docAll.process envOk ctx0).2
      = [docAll.primaryInvocation ctx0 ⟨"Hello\n\nWorld\n\n"⟩, docAll.combineInvocation ctx0] := by
    simp [Document.process, docAll_content, runPandoc, envOk]
  exact ⟨rfl, rfl, docAll_process_ok, by rw [htrace]; rfl⟩

/-- C1 amended: for every document whose prepend and append lists are
absent or empty, the combine step is not skipped — after a successful
primary conversion a second converter invocation always occurs, whose
input list is exactly the primary output file under `root/book/docx`,
and the run's final result is that second invocation's result. -/
theorem c1_combine_always_runs (env : PandocEnv) (context : RenderContext)
    (doc : Document) (content : DocumentContent)
    (hpre : doc.prepend.getD [] = []) (happ : doc.append.getD [] = [])
    (hcontent : doc.get_filtered_content context = Except.ok content)
    (henv : runPandoc env (doc.primaryInvocation context content) = Except.ok ()) :
    (doc.process env context).2
        = [doc.primaryInvocation context content, doc.combineInvocation context]
    ∧ (doc.combineInvocation context).inputFiles
        = [PathBuf.join (PathBuf.join context.root "book/docx") doc.filename]
    ∧ (doc.process env context).1 = runPandoc env (doc.combineInvocation context) := by
  refine ⟨?_, ?_, ?_⟩
  · simp [Document.process, hcontent, henv]
  · rw [combineInvocation_inputFiles]
    simp [hpre, happ]
  · simp [Document.process, hcontent, henv]

/-- Witness for the amended C1 at a concrete input. -/
theorem c1_combine_always_runs_witness :
    (docAll.process envOk ctx0).2
        = [docAll.primaryInvocation ctx0 ⟨"Hello\n\nWorld\n\n"⟩, docAll.combineInvocation ctx0]
    ∧ (docAll.combineInvocation ctx0).inputFiles = ["/book/book/docx/out.docx"]
    ∧ (docAll.process envOk ctx0).1 = runPandoc envOk (docAll.combineInvocation ctx0) := by
  have h := c1_combine_always_runs envOk ctx0 docAll ⟨"Hello\n\nWorld\n\n"⟩
    rfl rfl docAll_content (by simp [runPandoc, envOk])
  refine ⟨h.1, ?_, h.2.2⟩
  rw [h.2.1]
  rfl

/-! ## C5: serde field-level defaults ignore `impl Default for Document` -/

/-- C5 (code bug): deserializing a document whose configuration fields
are all absent yields the field-type defaults — empty `filename`,
`None` template and `None` include — not the `output.docx` /
`reference.docx` / `["*"]` values of `impl Default for Document` that
the spec states: each field carries only a field-level
`#[serde(default)]`, so the struct-level `Default` impl the code
itself provides is never consulted. -/
theorem c5_serde_field_defaults :
    Document.deserialize DocumentToml.allAbsent
        = { filename := "", template := none, «include» := none
          , offset_headings_by := none, append := none, prepend := none }
    ∧ Document.defaultImpl
        = { filename := "output.docx", template := some "reference.docx"
          , «include» := some ["*"], offset_headings_by := none
          , append := none, prepend := none }
    ∧ Document.deserialize DocumentToml.allAbsent ≠ Document.defaultImpl := by
  refine ⟨rfl, rfl, ?_⟩
  intro h
  have hf := congrArg Document.filename h
  simp [Document.deserialize, DocumentToml.allAbsent, Document.defaultImpl] at hf

/-! ## C9: a malformed include glob panics instead of erroring -/

/-- C9 counterexample: for the concrete include list `["["]` (an
unclosed character class), pattern compilation panics through the
`expect` on `Pattern::new`; it does not return an error result of any
message. -/
theorem c9_counterexample :
    docBadGlob.get_patterns = Except.error (ProcError.panicked patternExpectMsg)
    ∧ ∀ msg, docBadGlob.get_patterns ≠ Except.error (ProcError.failed msg) := by
  have h : docBadGlob.get_patterns = Except.error (ProcError.panicked patternExpectMsg) := by
    simp [Document.get_patterns, docBadGlob, compileIncludes, expectPanic,
      Glob.pattern_new_lbracket, bind, Except.bind, pure, Except.pure]
  refine ⟨h, fun msg hmsg => ?_⟩
  rw [h] at hmsg
  simp at hmsg

theorem compileIncludes_panics {l : List PathBuf} {s : PathBuf}
    (hs : s ∈ l) {e : Glob.PatternError} (he : Glob.Pattern.new s = Except.error e) :
    compileIncludes l = Except.error (ProcError.panicked patternExpectMsg) := by
  induction l with
  | nil => simp at hs
  | cons a rest ih =>
    rcases List.mem_cons.mp hs with h1 | h2
    · subst h1
      simp [compileIncludes, expectPanic, he, bind, Except.bind]
    · cases hp : Glob.Pattern.new a with
      | error e2 => simp [compileIncludes, expectPanic, hp, bind, Except.bind]
      | ok p => simp [compileIncludes, expectPanic, hp, ih h2, bind, Except.bind]

/-- C9 amended: for every include list containing at least one string
that is not a syntactically valid glob, pattern compilation panics
(Rust `expect`, a process abort) rather than returning an error
result, and that panic aborts processing of the document before any
converter invocation. -/
theorem c9_invalid_glob_panics (doc : Document)
    (h : ∃ s ∈ doc.«include».getD [], ∃ e, Glob.Pattern.new s = Except.error e) :
    doc.get_patterns = Except.error (ProcError.panicked patternExpectMsg)
    ∧ ∀ env context, doc.process env context
        = (Except.error (ProcError.panicked patternExpectMsg), []) := by
  obtain ⟨s, hs, e, he⟩ := h
  have hc := compileIncludes_panics hs he
  have hp : doc.get_patterns = Except.error (ProcError.panicked patternExpectMsg) := by
    simp [Document.get_patterns, hc, bind, Except.bind]
  refine ⟨hp, fun env context => ?_⟩
  simp [Document.process, Document.get_filtered_content, Document.get_chapters, hp,
    bind, Except.bind]

/-- Witness for the amended C9 at the concrete include list `["["]`. -/
theorem c9_invalid_glob_panics_witness :
    docBadGlob.get_patterns = Except.error (ProcError.panicked patternExpectMsg)
    ∧ docBadGlob.process envOk ctx0
        = (Except.error (ProcError.panicked patternExpectMsg), []) := by
  have h := c9_invalid_glob_panics docBadGlob
    ⟨"[", by simp [docBadGlob], ⟨Glob.ERROR_INVALID_RANGE⟩, Glob.pattern_new_lbracket⟩
  exact ⟨h.1, h.2 envOk ctx0⟩
